import Mathlib

/-!
Shallow embedding of the hybrid retrieval / rerank / context-assembly
pipeline of the ai_rag_backend repository, together with theorems checking
the natural-language specification against it.

Sources embedded:
- src/rerank/rerank_chain.py  (get_rerank_scores and its reply parser)
- src/rag_chain/chain.py      (QARunnable.__init__ BM25 corpus, QARunnable.invoke)
- src/services/chat_service.py (build_history_text_with_token_limit, chat_service)
- src/api/chat_api.py         (the chat endpoint and its exception wrapping)

External collaborators (vector store, BM25 index internals, the generative
model, tiktoken, jieba, redis) are modelled as parameters; everything the
repository itself computes is translated directly from the Python source.
Python floats are modelled as rationals, Python strings as Lean strings
(len counts unicode codepoints in both).
-/

namespace AiRag

/-- A retrieved document as produced by the knowledge store: page content
plus metadata key-value pairs (a Python dict, modelled as an association list). -/
structure Doc where
  page_content : String
  metadata : List (String × String)
deriving DecidableEq

/-- Outcome of one underlying language-model call: the call either raises an
exception or returns a free-form reply string. -/
inductive CallOutcome where
  | raises
  | replies (response : String)
deriving DecidableEq

/-- Unicode whitespace as matched by the Python regex class backslash-s on str
and stripped by str.strip. -/
def isPySpace (c : Char) : Bool :=
  c == ' ' || c == '\t' || c == '\n' || c == '\r' || c == '\x0b' || c == '\x0c' ||
  c == '\x1c' || c == '\x1d' || c == '\x1e' || c == '\x1f' || c == '\x85' || c == '\xa0' ||
  c == '\u1680' || ('\u2000' ≤ c && c ≤ '\u200a') || c == '\u2028' || c == '\u2029' ||
  c == '\u202f' || c == '\u205f' || c == '\u3000'

/-- Value of a decimal digit string, most significant first. -/
def digitsToNat (ds : List Char) : Nat :=
  ds.foldl (fun acc c => 10 * acc + (c.toNat - '0'.toNat)) 0

/-- Numeric value of "intPart.fracPart", as produced by Python float() on the
regex group extracted by rerank_chain.py (modelled exactly as a rational). -/
def parsedScore (intPart fracPart : List Char) : ℚ :=
  if fracPart.isEmpty then (digitsToNat intPart : ℚ)
  else (digitsToNat intPart : ℚ) + (digitsToNat fracPart : ℚ) / (10 : ℚ) ^ fracPart.length

/-- Python str.strip: remove leading and trailing whitespace. -/
def stripChars (cs : List Char) : List Char :=
  ((cs.dropWhile isPySpace).reverse.dropWhile isPySpace).reverse

/-- Match a literal character sequence at the head of the input, returning the
rest of the input on success. -/
def dropLiteral : List Char → List Char → Option (List Char)
  | [], rest => some rest
  | l :: ls, c :: cs => if c = l then dropLiteral ls cs else none
  | _ :: _, [] => none

/-- Consume an optional half-width or full-width colon, reporting which (if
any) colon was consumed. -/
def dropOptColon : List Char → Option Char × List Char
  | [] => (none, [])
  | c :: cs => if c = ':' ∨ c = '：' then (some c, cs) else (none, c :: cs)

/-- Tail of the rerank reply pattern: the literal 理由, an optional colon,
optional whitespace, and a nonempty rationale (DOTALL, so it may span lines).
Mirrors the backtracking of the Python regex: when the colon is the final
character of the reply, the regex succeeds by not consuming the colon, and
when everything after the colon is whitespace the greedy whitespace run backs
off by one character so that the rationale group is nonempty. -/
def matchReasonTail (score : ℚ) (cs : List Char) : Option (ℚ × String) :=
  match dropLiteral "理由".data cs with
  | none => none
  | some cs1 =>
    let p := dropOptColon cs1
    match p.2 with
    | [] =>
      match p.1 with
      | some c => some (score, String.mk (stripChars [c]))
      | none => none
    | c :: rest =>
      let t := (c :: rest).dropWhile isPySpace
      let group2 := if t.isEmpty then [(c :: rest).getLastD c] else t
      some (score, String.mk (stripChars group2))

/-- Attempt to match the rerank reply pattern at the start of the input:
评分, optional colon, whitespace, a decimal score, then a whitespace run whose
final character is a carriage return or newline, then the rationale tail. -/
def matchScoreReasonAt (cs : List Char) : Option (ℚ × String) :=
  match dropLiteral "评分".data cs with
  | none => none
  | some cs1 =>
    let cs2 := (dropOptColon cs1).2
    let cs3 := cs2.dropWhile isPySpace
    let intPart := cs3.takeWhile Char.isDigit
    if intPart.isEmpty then none
    else
      let cs4 := cs3.dropWhile Char.isDigit
      let fp : List Char × List Char :=
        match cs4 with
        | '.' :: rest =>
          if (rest.takeWhile Char.isDigit).isEmpty then ([], cs4)
          else (rest.takeWhile Char.isDigit, rest.dropWhile Char.isDigit)
        | _ => ([], cs4)
      let ws := fp.2.takeWhile isPySpace
      match ws.getLast? with
      | none => none
      | some c =>
        if c = '\r' ∨ c = '\n' then
          matchReasonTail (parsedScore intPart fp.1) (fp.2.dropWhile isPySpace)
        else none

/-- Python re.search for the rerank reply pattern: try each start position
from the left and return the first match. -/
def searchScoreReason : List Char → Option (ℚ × String)
  | [] => none
  | c :: cs =>
    match matchScoreReasonAt (c :: cs) with
    | some r => some r
    | none => searchScoreReason cs

/-- One iteration of the get_rerank_scores loop in rerank_chain.py: run the
scoring chain on a single document, parse the reply, and fall back to the
default tuple on a parse failure or to the invocation-error tuple when the
call raises. -/
def scoreOne (oracle : String → String → CallOutcome) (question doc : String)
    (default_score : ℚ) (default_reason : String) : ℚ × String × String :=
  match oracle question doc with
  | .raises => (default_score, doc, "模型调用异常")
  | .replies response =>
    match searchScoreReason response.data with
    | some sr => (sr.1, doc, sr.2)
    | none => (default_score, doc, default_reason)

/-- get_rerank_scores from rerank_chain.py: score every candidate document in
input order, one model call per document. -/
def get_rerank_scores (oracle : String → String → CallOutcome) (question : String)
    (documents : List String) (default_score : ℚ) (default_reason : String) :
    List (ℚ × String × String) :=
  documents.map (fun doc => scoreOne oracle question doc default_score default_reason)

/-- The merge-and-deduplicate loop of QARunnable.invoke Step 3: keep a
document when its page content has not been seen yet. -/
def dedupLoop : List Doc → List String → List Doc
  | [], _ => []
  | d :: ds, seen =>
    if d.page_content ∈ seen then dedupLoop ds seen
    else d :: dedupLoop ds (d.page_content :: seen)

/-- Merged candidate list: semantic results first, then lexical results,
deduplicated by exact text with first occurrence winning. -/
def mergeDocs (vector_docs bm25_docs : List Doc) : List Doc :=
  dedupLoop (vector_docs ++ bm25_docs) []

/-- Stable insertion into a score-descending list: the new element goes in
front of the first element whose score it reaches. -/
def insertDesc (x : ℚ × String × String) : List (ℚ × String × String) → List (ℚ × String × String)
  | [] => [x]
  | y :: ys => if y.1 ≤ x.1 then x :: y :: ys else y :: insertDesc x ys

/-- Stable score-descending sort, the behaviour of the Python call
sorted(items, key score, reverse True). -/
def sortDesc : List (ℚ × String × String) → List (ℚ × String × String)
  | [] => []
  | x :: xs => insertDesc x (sortDesc xs)

/-- The FILTERING step of QARunnable.invoke: keep scored candidates at or
above the threshold, sort by descending score, take at most three. -/
def filterRerank (threshold : ℚ) (reranked : List (ℚ × String × String)) :
    List (ℚ × String × String) :=
  (sortDesc (reranked.filter (fun item => threshold ≤ item.1))).take 3

/-- A Selected Document as assembled by QARunnable.invoke Step 5. -/
structure SelectedDoc where
  content : String
  score : ℚ
  reason : String
  source_name : String
  source_text : String
deriving DecidableEq

/-- Python dict get with default empty string. -/
def metaGet (m : List (String × String)) (key : String) : String :=
  match m.find? (fun kv => kv.1 == key) with
  | some kv => kv.2
  | none => ""

/-- The content2metadata mapping of QARunnable.invoke Step 5: metadata of the
(unique, first) merged document with the given page content. -/
def content2metadata (merged : List Doc) (t : String) : Option (List (String × String)) :=
  (merged.find? (fun d => d.page_content == t)).map Doc.metadata

/-- Build one Selected Document from a scored item, looking its metadata up
by exact text (an empty or missing metadata dict yields empty fields, the
Python truthiness check). -/
def mkSelected (merged : List Doc) (item : ℚ × String × String) : SelectedDoc :=
  let metadata := content2metadata merged item.2.1
  let source_name :=
    match metadata with
    | some m => if m.isEmpty then "" else metaGet m "source_name"
    | none => ""
  let source_text :=
    match metadata with
    | some m => if m.isEmpty then "" else metaGet m "source_text"
    | none => ""
  { content := item.2.1, score := item.1, reason := item.2.2,
    source_name := source_name, source_text := source_text }

/-- The fixed context character budget of QARunnable. -/
def max_context_length : Nat := 2000

/-- The context-assembly loop of QARunnable.invoke Step 5: walk the filtered
candidates in order, break at the first passage whose text would push the
buffer past the budget, otherwise append passage text plus a blank-line
separator and record the Selected Document. Returns the final context and the
selected documents in iteration order. -/
def assembleContext (merged : List Doc) :
    List (ℚ × String × String) → String → String × List SelectedDoc
  | [], context => (context, [])
  | item :: rest, context =>
    if max_context_length < context.length + item.2.1.length then
      (context, [])
    else
      let sd := mkSelected merged item
      let next := assembleContext merged rest (context ++ item.2.1 ++ "\n\n")
      (next.1, sd :: next.2)

/-- The generative-model call made by QARunnable.invoke, recording which
template is used and which variables are bound to it. -/
inductive GenCall where
  | knowledge (context question chat_history : String)
  | fallback_question (question : String)
  | fallback_question_history (question chat_history : String)
deriving DecidableEq

/-- The Pipeline Result dictionary returned by QARunnable.invoke, together
with a record of the generative call that produced the answer. -/
structure InvokeResult where
  result : String
  source_documents : List SelectedDoc
  top_score : ℚ
  used_knowledge : Bool
  no_use_reason : Option String
  gen_call : GenCall
deriving DecidableEq

/-- QARunnable.invoke from chain.py. The semantic retrieval results and the
raw BM25 results are inputs (the indexes are external); the generative model
is the function gen from recorded calls to answers, and oracle gives the
behaviour of each per-passage scoring call. -/
def invoke (oracle : String → String → CallOutcome) (gen : GenCall → String)
    (threshold : ℚ) (query chat_history : String)
    (vector_docs bm25_results : List Doc) : InvokeResult :=
  let bm25_docs := bm25_results.take 5
  let merged_docs := mergeDocs vector_docs bm25_docs
  if merged_docs.isEmpty then
    let call := GenCall.fallback_question query
    { result := gen call, source_documents := [], top_score := 0,
      used_knowledge := false, no_use_reason := some "未检索到任何文档", gen_call := call }
  else
    let raw_docs := merged_docs.map Doc.page_content
    let reranked := get_rerank_scores oracle query raw_docs 0 "未能识别评分格式"
    let filtered := filterRerank threshold reranked
    if filtered.isEmpty then
      let call := GenCall.fallback_question_history query chat_history
      { result := gen call, source_documents := [], top_score := 0,
        used_knowledge := false,
        no_use_reason := some "无相关知识文档或该问题不需要引用文档", gen_call := call }
    else
      let assembled := assembleContext merged_docs filtered ""
      let top_score :=
        match assembled.2 with
        | [] => (0 : ℚ)
        | sd :: _ => sd.score
      let call := GenCall.knowledge assembled.1 query chat_history
      { result := gen call, source_documents := assembled.2, top_score := top_score,
        used_knowledge := true, no_use_reason := none, gen_call := call }

/-- A conversation turn as stored in the session history: langchain
HumanMessage or AIMessage, with its content. -/
structure ChatMessage where
  is_human : Bool
  content : String
deriving DecidableEq

/-- One formatted history line, "User: content" or "Assistant: content" plus
a trailing newline, as built by build_history_text_with_token_limit. -/
def formatLine (msg : ChatMessage) : String :=
  (if msg.is_human then "User" else "Assistant") ++ ": " ++ msg.content ++ "\n"

/-- Python negative-index slicing messages[-k:]: the last k elements, or the
whole list when k is zero. -/
def pyTail (k : Nat) (xs : List ChatMessage) : List ChatMessage :=
  if k = 0 then xs else xs.drop (xs.length - k)

/-- The accumulation loop of build_history_text_with_token_limit: walk the
considered turns newest first, prepend each formatted line while the running
token count stays within the budget, break at the first line that would
exceed it. -/
def historyLoop (count : String → Nat) (max_tokens : Nat) :
    List ChatMessage → String → Nat → String
  | [], history_text, _ => history_text
  | msg :: rest, history_text, total_tokens =>
    let line := formatLine msg
    let line_tokens := count line
    if max_tokens < total_tokens + line_tokens then history_text
    else historyLoop count max_tokens rest (line ++ history_text) (total_tokens + line_tokens)

/-- build_history_text_with_token_limit from chat_service.py; the tiktoken
count_tokens function is the external parameter count. -/
def build_history_text_with_token_limit (count : String → Nat)
    (messages : List ChatMessage) (max_msgs max_tokens : Nat) : String :=
  historyLoop count max_tokens (pyTail max_msgs messages).reverse "" 0

/-- A message of the incoming HTTP request body. -/
structure ApiMessage where
  role : String
  content : String
deriving DecidableEq

/-- The HTTP request body of the chat endpoint. -/
structure ChatRequest where
  session_id : String
  messages : List ApiMessage
deriving DecidableEq

/-- The HTTP response body of the chat endpoint. -/
structure ChatResponse where
  answer : String
  used_knowledge : Bool
  top_score : Option ℚ
  no_use_reason : Option String
  source_documents : List SelectedDoc
deriving DecidableEq

/-- A Python exception as raised inside the chat endpoint: either a FastAPI
HTTPException carrying a status code and detail, or any other exception
carrying its message. -/
inductive PyError where
  | http_error (status_code : Nat) (detail : String)
  | other_error (message : String)
deriving DecidableEq

/-- Python str() of an exception: starlette HTTPException renders as
"status_code: detail"; other exceptions render their message. -/
def pyStr : PyError → String
  | .http_error status_code detail => toString status_code ++ ": " ++ detail
  | .other_error message => message

/-- The last user-role content in the incoming batch, as accumulated by the
write-loop of the chat endpoint and of chat_service (None when no user-role
turn occurs). -/
def last_user_question (messages : List ApiMessage) : Option String :=
  messages.foldl (fun acc m => if m.role == "user" then some m.content else acc) none

/-- Python truthiness of the accumulated question: falsy when it is None or
the empty string, which is what the check "if not last_user_question" tests. -/
def questionFalsy : Option String → Bool
  | none => true
  | some s => s == ""

/-- The question check of chat_service in chat_service.py: raise
ValueError("No user question provided.") when no (truthy) user question is
present, instead of returning a Pipeline Result. -/
def chat_service_check (messages : List ApiMessage) : Except PyError Unit :=
  if questionFalsy (last_user_question messages) then
    .error (.other_error "No user question provided.")
  else .ok ()

/-- The body of the try block of the chat endpoint in chat_api.py: extract
the last user question, raise HTTPException(400) when none is present,
otherwise run the rest of the pipeline (history build, QA chain, response
assembly — abstracted as the parameter pipeline, whose own failures are
arbitrary exceptions). -/
def chatBody (pipeline : String → Except PyError ChatResponse) (req : ChatRequest) :
    Except PyError ChatResponse :=
  let q := last_user_question req.messages
  if questionFalsy q then .error (.http_error 400 "No user question provided.")
  else pipeline (q.getD "")

/-- The chat endpoint of chat_api.py: the try block wrapped by
"except Exception as e: raise HTTPException(500, ...)". The except clause
also catches the HTTPException(400) raised inside the try block. -/
def chatEndpoint (pipeline : String → Except PyError ChatResponse) (req : ChatRequest) :
    Except PyError ChatResponse :=
  match chatBody pipeline req with
  | .ok resp => .ok resp
  | .error e => .error (.http_error 500 ("Internal error: " ++ pyStr e))

/-- Space-joined token list: Python " ".join(tokens), used in
QARunnable.__init__ to build the BM25 corpus from jieba tokens. -/
def joinTokens : List String → String
  | [] => ""
  | [t] => t
  | t :: t2 :: ts => t ++ " " ++ joinTokens (t2 :: ts)

/-- Concatenation of a token list without separators (what a segmentation of
a text concatenates back to). -/
def concatTokens : List String → String
  | [] => ""
  | t :: ts => t ++ concatTokens ts

/-- The segmented copy of a stored document built in QARunnable.__init__:
jieba tokens of the page content joined by single spaces, with the original
metadata. The segmenter cut is the external jieba.cut. -/
def segmentedCopy (cut : String → List String) (d : Doc) : Doc :=
  { page_content := joinTokens (cut d.page_content), metadata := d.metadata }

/-! Derived notions used to state the theorems. -/

/-- Context accumulated by appending, to an initial buffer, each passage text
followed by the blank-line separator, in order. -/
def appendItems (ctx : String) (l : List (ℚ × String × String)) : String :=
  l.foldl (fun acc it => acc ++ it.2.1 ++ "\n\n") ctx

/-- Passage text of the scored item at a position (empty when out of range). -/
def itemText (l : List (ℚ × String × String)) (j : Nat) : String :=
  (l[j]?.map (fun it => it.2.1)).getD ""

/-- Concatenation of a list of strings without separators. -/
def concatLines : List String → String
  | [] => ""
  | s :: ss => s ++ concatLines ss

/-- Total token count of the formatted lines of a list of turns. -/
def tokenSum (count : String → Nat) (l : List ChatMessage) : Nat :=
  (l.map (fun m => count (formatLine m))).sum

/-- Total character length of a list of strings. -/
def sumLen (l : List String) : Nat :=
  (l.map String.length).sum

/-- Length of the context bound by a recorded generative call (zero for the
no-knowledge template, which has no context slot). -/
def genCallContextLength : GenCall → Nat
  | .knowledge context _ _ => context.length
  | .fallback_question _ => 0
  | .fallback_question_history _ _ => 0

/-- The filtered candidate list computed inside invoke for the given
retrieval results. -/
def invokeFiltered (oracle : String → String → CallOutcome) (threshold : ℚ)
    (query : String) (vector_docs bm25_results : List Doc) :
    List (ℚ × String × String) :=
  filterRerank threshold (get_rerank_scores oracle query
    ((mergeDocs vector_docs (bm25_results.take 5)).map Doc.page_content) 0 "未能识别评分格式")

/-! Concrete instantiations used by counterexamples and witnesses. -/

/-- A 2000-character passage text. -/
def bigText2000 : String := String.mk (List.replicate 2000 'a')

/-- A 2001-character passage text. -/
def bigText2001 : String := String.mk (List.replicate 2001 'b')

/-- A scoring oracle whose model always replies with a well-formed score of 85. -/
def scoreOracle : String → String → CallOutcome :=
  fun _ _ => CallOutcome.replies "评分: 85\n理由: ok"

/-- A scoring oracle whose model always replies with a well-formed score of 10. -/
def lowOracle : String → String → CallOutcome :=
  fun _ _ => CallOutcome.replies "评分: 10\n理由: ok"

/-- A scoring oracle whose model call always raises. -/
def raisingOracle : String → String → CallOutcome :=
  fun _ _ => CallOutcome.raises

/-- A scoring oracle whose model replies with unparseable text. -/
def badOracle : String → String → CallOutcome :=
  fun _ _ => CallOutcome.replies "hello"

/-- A generative model returning a fixed answer. -/
def ansGen : GenCall → String := fun _ => "ANSWER"

/-- A pipeline continuation for the endpoint model that is never reached in
the scenarios considered. -/
def unreachedPipeline : String → Except PyError ChatResponse :=
  fun _ => Except.error (PyError.other_error "unreachable")

/-- A concrete segmenter: splits the text "ab" into two tokens and leaves
every other text whole. -/
def cutAB : String → List String :=
  fun s => if s = "ab" then ["a", "b"] else [s]

/-! Helper lemmas about the relevance scorer. -/

/-- Whatever the call outcome and reply, the scored tuple carries the input
document text. -/
theorem scoreOne_doc (oracle : String → String → CallOutcome) (question doc : String)
    (ds : ℚ) (dr : String) : (scoreOne oracle question doc ds dr).2.1 = doc := by
  unfold scoreOne
  cases oracle question doc with
  | raises => rfl
  | replies response => cases h : searchScoreReason response.data <;> simp [h]

/-- Elementwise description of get_rerank_scores. -/
theorem get_rerank_scores_get (oracle : String → String → CallOutcome)
    (question : String) (documents : List String) (ds : ℚ) (dr : String) (i : Nat) :
    (get_rerank_scores oracle question documents ds dr)[i]?
      = (documents[i]?).map (fun doc => scoreOne oracle question doc ds dr) := by
  unfold get_rerank_scores
  exact List.getElem?_map ..

/-- Claim C5 (confirmed): for every question and candidate list, and however
the individual per-passage model calls behave, the relevance scorer returns
exactly one tuple per input passage, and the text component of the output at
each index is the input passage at that index (output is never shorter than
the input and is order-preserving). -/
theorem c5_rerank_length_and_order (oracle : String → String → CallOutcome)
    (question : String) (documents : List String) (ds : ℚ) (dr : String) :
    (get_rerank_scores oracle question documents ds dr).length = documents.length ∧
    (get_rerank_scores oracle question documents ds dr).map (fun t => t.2.1) = documents := by
  refine ⟨by simp [get_rerank_scores], ?_⟩
  unfold get_rerank_scores
  rw [List.map_map]
  exact List.map_id'' (fun doc => scoreOne_doc oracle question doc ds dr) documents

/-- Claim C6 (confirmed): a passage whose scoring reply does not match the
score/rationale pattern yields the default tuple with the
format-not-recognised rationale, a passage whose model call raises yields the
zero-score tuple with the invocation-error rationale, and in both cases the
batch is not aborted: the output at the corresponding index is still
produced. -/
theorem c6_rerank_defaults (oracle : String → String → CallOutcome)
    (question : String) (documents : List String) (i : Nat) (doc : String)
    (hdoc : documents[i]? = some doc) :
    (oracle question doc = CallOutcome.raises →
      (get_rerank_scores oracle question documents 0 "未能识别评分格式")[i]?
        = some (0, doc, "模型调用异常")) ∧
    (∀ response, oracle question doc = CallOutcome.replies response →
      searchScoreReason response.data = none →
      (get_rerank_scores oracle question documents 0 "未能识别评分格式")[i]?
        = some (0, doc, "未能识别评分格式")) := by
  constructor
  · intro h
    rw [get_rerank_scores_get, hdoc]
    simp [scoreOne, h]
  · intro response h hparse
    rw [get_rerank_scores_get, hdoc]
    simp [scoreOne, h, hparse]

/-- Witness for claim C6: on a concrete two-passage batch where the first
call raises and the second reply is unparseable, both default tuples appear
at their positions. -/
theorem c6_rerank_defaults_witness :
    (get_rerank_scores raisingOracle "q" ["a", "b"] 0 "未能识别评分格式")[0]?
      = some (0, "a", "模型调用异常") ∧
    (get_rerank_scores badOracle "q" ["a", "b"] 0 "未能识别评分格式")[1]?
      = some (0, "b", "未能识别评分格式") :=
  ⟨(c6_rerank_defaults raisingOracle "q" ["a", "b"] 0 "a" rfl).1 rfl,
   (c6_rerank_defaults badOracle "q" ["a", "b"] 1 "b" rfl).2 "hello" rfl (by decide)⟩

/-! Helper lemmas about the hybrid merge. -/

/-- The deduplicated list is a sublist of the input (order is preserved). -/
theorem dedupLoop_sublist : ∀ (l : List Doc) (seen : List String),
    (dedupLoop l seen).Sublist l
  | [], _ => List.Sublist.refl _
  | d :: ds, seen => by
    unfold dedupLoop
    by_cases h : d.page_content ∈ seen
    · simp only [if_pos h]
      exact (dedupLoop_sublist ds seen).cons d
    · simp only [if_neg h]
      exact (dedupLoop_sublist ds (d.page_content :: seen)).cons₂ d

/-- No document surviving deduplication has a text that was already seen. -/
theorem dedupLoop_not_mem_seen : ∀ (l : List Doc) (seen : List String) (d : Doc),
    d ∈ dedupLoop l seen → d.page_content ∉ seen
  | [], _, d => by simp [dedupLoop]
  | d0 :: ds, seen, d => by
    unfold dedupLoop
    by_cases h : d0.page_content ∈ seen
    · simp only [if_pos h]
      exact dedupLoop_not_mem_seen ds seen d
    · simp only [if_neg h]
      intro hm
      rcases List.mem_cons.mp hm with rfl | hm
      · exact h
      · have hrec := dedupLoop_not_mem_seen ds (d0.page_content :: seen) d hm
        exact fun hs => hrec (List.mem_cons_of_mem _ hs)

/-- The deduplicated list has pairwise distinct texts. -/
theorem dedupLoop_pairwise : ∀ (l : List Doc) (seen : List String),
    (dedupLoop l seen).Pairwise (fun a b => a.page_content ≠ b.page_content)
  | [], _ => by simp [dedupLoop]
  | d0 :: ds, seen => by
    unfold dedupLoop
    by_cases h : d0.page_content ∈ seen
    · simp only [if_pos h]
      exact dedupLoop_pairwise ds seen
    · simp only [if_neg h]
      refine List.Pairwise.cons ?_ (dedupLoop_pairwise ds (d0.page_content :: seen))
      intro b hb he
      have hrec := dedupLoop_not_mem_seen ds (d0.page_content :: seen) b hb
      exact hrec (by rw [← he]; exact List.mem_cons_self _ _)

/-- A text occurs in the deduplicated list exactly when it occurs in the
input and was not already seen. -/
theorem dedupLoop_mem_text : ∀ (l : List Doc) (seen : List String) (t : String),
    (∃ d, d ∈ dedupLoop l seen ∧ d.page_content = t)
      ↔ ((∃ d, d ∈ l ∧ d.page_content = t) ∧ t ∉ seen)
  | [], seen, t => by simp [dedupLoop]
  | d0 :: ds, seen, t => by
    unfold dedupLoop
    by_cases h : d0.page_content ∈ seen
    · simp only [if_pos h]
      rw [dedupLoop_mem_text ds seen t]
      constructor
      · rintro ⟨⟨d, hd, rfl⟩, hn⟩
        exact ⟨⟨d, List.mem_cons_of_mem _ hd, rfl⟩, hn⟩
      · rintro ⟨⟨d, hd, rfl⟩, hn⟩
        rcases List.mem_cons.mp hd with rfl | hd
        · exact absurd h hn
        · exact ⟨⟨d, hd, rfl⟩, hn⟩
    · simp only [if_neg h]
      constructor
      · intro ⟨d, hd, ht⟩
        rcases List.mem_cons.mp hd with rfl | hd
        · exact ⟨⟨d, List.mem_cons_self _ _, ht⟩, ht ▸ h⟩
        · obtain ⟨⟨e, he, rfl⟩, hn⟩ := (dedupLoop_mem_text ds (d0.page_content :: seen) _).mp ⟨d, hd, ht⟩
          exact ⟨⟨e, List.mem_cons_of_mem _ he, rfl⟩, fun hs => hn (List.mem_cons_of_mem _ hs)⟩
      · rintro ⟨⟨d, hd, rfl⟩, hn⟩
        rcases List.mem_cons.mp hd with rfl | hd
        · exact ⟨d, List.mem_cons_self _ _, rfl⟩
        · by_cases he : d.page_content = d0.page_content
          · exact ⟨d0, List.mem_cons_self _ _, he.symm⟩
          · have := (dedupLoop_mem_text ds (d0.page_content :: seen) d.page_content).mpr
              ⟨⟨d, hd, rfl⟩, by simp [List.mem_cons, he, hn]⟩
            obtain ⟨e, hme, hte⟩ := this
            exact ⟨e, List.mem_cons_of_mem _ hme, hte⟩

/-- Every document surviving deduplication is the first input document with
its text: first occurrence wins and carries its own metadata. -/
theorem dedupLoop_find? : ∀ (l : List Doc) (seen : List String) (d : Doc),
    d ∈ dedupLoop l seen →
    l.find? (fun x => x.page_content == d.page_content) = some d
  | [], _, d => by simp [dedupLoop]
  | d0 :: ds, seen, d => by
    unfold dedupLoop
    by_cases h : d0.page_content ∈ seen
    · simp only [if_pos h]
      intro hm
      have hne : d.page_content ∉ seen := dedupLoop_not_mem_seen ds seen d hm
      have hne0 : ¬(d0.page_content == d.page_content) = true := by
        simp only [beq_iff_eq]
        intro he
        exact hne (he ▸ h)
      rw [@List.find?_cons_of_neg Doc (fun x => x.page_content == d.page_content) d0 ds hne0]
      exact dedupLoop_find? ds seen d hm
    · simp only [if_neg h]
      intro hm
      rcases List.mem_cons.mp hm with rfl | hm
      · exact @List.find?_cons_of_pos Doc (fun x => x.page_content == d.page_content) d ds (by simp)
      · have hne : d.page_content ∉ d0.page_content :: seen :=
          dedupLoop_not_mem_seen ds (d0.page_content :: seen) d hm
        have hne0 : ¬(d0.page_content == d.page_content) = true := by
          simp only [beq_iff_eq]
          intro he
          exact hne (by rw [← he]; exact List.mem_cons_self _ _)
        rw [@List.find?_cons_of_neg Doc (fun x => x.page_content == d.page_content) d0 ds hne0]
        exact dedupLoop_find? ds (d0.page_content :: seen) d hm

/-- Claim C8 (confirmed): the merged candidate sequence has pairwise distinct
texts, preserves retrieval order with semantic results before lexical ones
(it is a sublist of the concatenated retrieval lists), every merged entry is
the first occurrence of its text in that concatenation, and every retrieved
text is represented. -/
theorem c8_merge_dedup (vector_docs bm25_results : List Doc) :
    (mergeDocs vector_docs (bm25_results.take 5)).Pairwise
        (fun a b => a.page_content ≠ b.page_content) ∧
    (mergeDocs vector_docs (bm25_results.take 5)).Sublist
        (vector_docs ++ bm25_results.take 5) ∧
    (∀ d, d ∈ mergeDocs vector_docs (bm25_results.take 5) →
      (vector_docs ++ bm25_results.take 5).find?
          (fun x => x.page_content == d.page_content) = some d) ∧
    (∀ t, (∃ d, d ∈ vector_docs ++ bm25_results.take 5 ∧ d.page_content = t) →
      ∃ d, d ∈ mergeDocs vector_docs (bm25_results.take 5) ∧ d.page_content = t) := by
  refine ⟨dedupLoop_pairwise _ _, dedupLoop_sublist _ _,
    fun d hd => dedupLoop_find? _ _ d hd, fun t ht => ?_⟩
  exact (dedupLoop_mem_text _ [] t).mpr ⟨ht, by simp⟩

/-- Witness for claim C8: concrete retrieval lists where the text "a" occurs
in both signals; the merged list keeps the semantic entry (with its metadata)
and every text is represented once. -/
theorem c8_merge_dedup_witness :
    (([⟨"a", [("k", "v")]⟩, ⟨"b", []⟩] : List Doc) ++
        ([⟨"a", []⟩, ⟨"c", []⟩] : List Doc).take 5).find?
        (fun x => x.page_content == "a") = some ⟨"a", [("k", "v")]⟩ ∧
    (∃ d, d ∈ mergeDocs [⟨"a", [("k", "v")]⟩, ⟨"b", []⟩]
        (([⟨"a", []⟩, ⟨"c", []⟩] : List Doc).take 5) ∧ d.page_content = "c") := by
  constructor
  · exact (c8_merge_dedup [⟨"a", [("k", "v")]⟩, ⟨"b", []⟩] [⟨"a", []⟩, ⟨"c", []⟩]).2.2.1
      ⟨"a", [("k", "v")]⟩ (by decide)
  · exact (c8_merge_dedup [⟨"a", [("k", "v")]⟩, ⟨"b", []⟩] [⟨"a", []⟩, ⟨"c", []⟩]).2.2.2
      "c" ⟨⟨"c", []⟩, by decide, rfl⟩

/-! Helper lemmas about the stable descending sort and the filtering step. -/

/-- Membership under stable insertion. -/
theorem mem_insertDesc (x y : ℚ × String × String) : ∀ (l : List (ℚ × String × String)),
    y ∈ insertDesc x l ↔ y = x ∨ y ∈ l
  | [] => by simp [insertDesc]
  | z :: zs => by
    unfold insertDesc
    by_cases h : z.1 ≤ x.1
    · simp only [if_pos h, List.mem_cons]
    · simp only [if_neg h, List.mem_cons, mem_insertDesc x y zs]
      tauto

/-- Membership under the stable descending sort. -/
theorem mem_sortDesc (y : ℚ × String × String) : ∀ (l : List (ℚ × String × String)),
    y ∈ sortDesc l ↔ y ∈ l
  | [] => Iff.rfl
  | x :: xs => by
    unfold sortDesc
    rw [mem_insertDesc, mem_sortDesc y xs, List.mem_cons]

/-- Stable insertion preserves non-increasing score order. -/
theorem pairwise_insertDesc (x : ℚ × String × String) :
    ∀ (l : List (ℚ × String × String)),
    l.Pairwise (fun a b => b.1 ≤ a.1) → (insertDesc x l).Pairwise (fun a b => b.1 ≤ a.1)
  | [], _ => by simp [insertDesc]
  | z :: zs, hp => by
    unfold insertDesc
    rcases List.pairwise_cons.mp hp with ⟨hz, hzs⟩
    by_cases h : z.1 ≤ x.1
    · simp only [if_pos h]
      refine List.pairwise_cons.mpr ⟨?_, hp⟩
      intro b hb
      rcases List.mem_cons.mp hb with rfl | hb
      · exact h
      · exact le_trans (hz b hb) h
    · simp only [if_neg h]
      refine List.pairwise_cons.mpr ⟨?_, pairwise_insertDesc x zs hzs⟩
      intro b hb
      rcases (mem_insertDesc x b zs).mp hb with rfl | hb
      · exact le_of_not_le h
      · exact hz b hb

/-- The stable descending sort yields non-increasing scores. -/
theorem pairwise_sortDesc : ∀ (l : List (ℚ × String × String)),
    (sortDesc l).Pairwise (fun a b => b.1 ≤ a.1)
  | [] => List.Pairwise.nil
  | x :: xs => pairwise_insertDesc x (sortDesc xs) (pairwise_sortDesc xs)

/-- At most three candidates survive filtering. -/
theorem filterRerank_length (threshold : ℚ) (r : List (ℚ × String × String)) :
    (filterRerank threshold r).length ≤ 3 := by
  unfold filterRerank
  rw [List.length_take]
  exact min_le_left _ _

/-- The filtered candidates are in non-increasing score order. -/
theorem filterRerank_pairwise (threshold : ℚ) (r : List (ℚ × String × String)) :
    (filterRerank threshold r).Pairwise (fun a b => b.1 ≤ a.1) :=
  List.Pairwise.sublist (List.take_sublist _ _) (pairwise_sortDesc _)

/-- Every filtered candidate reaches the threshold and comes from the scored
input. -/
theorem filterRerank_mem (threshold : ℚ) (r : List (ℚ × String × String))
    (x : ℚ × String × String) (hx : x ∈ filterRerank threshold r) :
    threshold ≤ x.1 ∧ x ∈ r := by
  unfold filterRerank at hx
  have hx1 := List.Sublist.mem hx (List.take_sublist _ _)
  have hx2 := (mem_sortDesc x _).mp hx1
  rcases List.mem_filter.mp hx2 with ⟨hmem, hpred⟩
  exact ⟨by simpa using hpred, hmem⟩

/-! Helper lemmas describing the branches of invoke. -/

/-- Branch 1 of invoke: empty hybrid retrieval triggers the no-knowledge
fallback bound to the question only. -/
theorem invoke_empty_retrieval (oracle : String → String → CallOutcome)
    (gen : GenCall → String) (threshold : ℚ) (query chat_history : String)
    (v b : List Doc) (h : mergeDocs v (b.take 5) = []) :
    invoke oracle gen threshold query chat_history v b =
      { result := gen (GenCall.fallback_question query), source_documents := [],
        top_score := 0, used_knowledge := false,
        no_use_reason := some "未检索到任何文档",
        gen_call := GenCall.fallback_question query } := by
  simp only [invoke]
  rw [h]
  rfl

/-- Branch 2 of invoke: nonempty retrieval but empty filtering triggers the
no-knowledge fallback bound to the question and the chat history. -/
theorem invoke_below_threshold (oracle : String → String → CallOutcome)
    (gen : GenCall → String) (threshold : ℚ) (query chat_history : String)
    (v b : List Doc) (hm : mergeDocs v (b.take 5) ≠ [])
    (hf : invokeFiltered oracle threshold query v b = []) :
    invoke oracle gen threshold query chat_history v b =
      { result := gen (GenCall.fallback_question_history query chat_history),
        source_documents := [], top_score := 0, used_knowledge := false,
        no_use_reason := some "无相关知识文档或该问题不需要引用文档",
        gen_call := GenCall.fallback_question_history query chat_history } := by
  have hm' : (mergeDocs v (b.take 5)).isEmpty = false := by
    rcases hl : mergeDocs v (b.take 5) with _ | ⟨d, ds⟩
    · exact absurd hl hm
    · rfl
  unfold invokeFiltered at hf
  simp only [invoke, hm', hf]
  rfl

/-- Branch 3 of invoke: nonempty filtering triggers the knowledge-grounded
call on the assembled context, whatever context assembly selects. -/
theorem invoke_answering (oracle : String → String → CallOutcome)
    (gen : GenCall → String) (threshold : ℚ) (query chat_history : String)
    (v b : List Doc) (hm : mergeDocs v (b.take 5) ≠ [])
    (hf : invokeFiltered oracle threshold query v b ≠ []) :
    invoke oracle gen threshold query chat_history v b =
      { result := gen (GenCall.knowledge
          (assembleContext (mergeDocs v (b.take 5))
            (invokeFiltered oracle threshold query v b) "").1 query chat_history),
        source_documents := (assembleContext (mergeDocs v (b.take 5))
            (invokeFiltered oracle threshold query v b) "").2,
        top_score := ((assembleContext (mergeDocs v (b.take 5))
            (invokeFiltered oracle threshold query v b) "").2.head?.map
              SelectedDoc.score).getD 0,
        used_knowledge := true, no_use_reason := none,
        gen_call := GenCall.knowledge
          (assembleContext (mergeDocs v (b.take 5))
            (invokeFiltered oracle threshold query v b) "").1 query chat_history } := by
  have hm' : (mergeDocs v (b.take 5)).isEmpty = false := by
    rcases hl : mergeDocs v (b.take 5) with _ | ⟨d, ds⟩
    · exact absurd hl hm
    · rfl
  have hf' : (invokeFiltered oracle threshold query v b).isEmpty = false := by
    rcases hl : invokeFiltered oracle threshold query v b with _ | ⟨x, xs⟩
    · exact absurd hl hf
    · rfl
  unfold invokeFiltered at hf'
  simp only [invoke, hm', hf']
  unfold invokeFiltered
  rcases hsel : (assembleContext (mergeDocs v (b.take 5))
      (filterRerank threshold (get_rerank_scores oracle query
        ((mergeDocs v (b.take 5)).map Doc.page_content) 0 "未能识别评分格式")) "").2
    with _ | ⟨sd, sds⟩ <;> simp [hsel]

/-- Claim C7 (confirmed): after FILTERING at most three scored candidates
remain, every remaining candidate scores at or above the threshold, the
remaining candidates are in non-increasing score order, and when none
remains (with a nonempty merged candidate set) the pipeline takes the
fallback branch with the no-relevant-knowledge reason. -/
theorem c7_filtering (threshold : ℚ) (r : List (ℚ × String × String)) :
    (filterRerank threshold r).length ≤ 3 ∧
    (∀ x, x ∈ filterRerank threshold r → threshold ≤ x.1) ∧
    (filterRerank threshold r).Pairwise (fun a b => b.1 ≤ a.1) ∧
    (∀ (oracle : String → String → CallOutcome) (gen : GenCall → String)
        (query chat_history : String) (v b : List Doc),
      mergeDocs v (b.take 5) ≠ [] →
      invokeFiltered oracle threshold query v b = [] →
      invoke oracle gen threshold query chat_history v b =
        { result := gen (GenCall.fallback_question_history query chat_history),
          source_documents := [], top_score := 0, used_knowledge := false,
          no_use_reason := some "无相关知识文档或该问题不需要引用文档",
          gen_call := GenCall.fallback_question_history query chat_history }) :=
  ⟨filterRerank_length threshold r,
   fun x hx => (filterRerank_mem threshold r x hx).1,
   filterRerank_pairwise threshold r,
   fun oracle gen query chat_history v b hm hf =>
     invoke_below_threshold oracle gen threshold query chat_history v b hm hf⟩

/-- Witness for claim C7: on the concrete scored list [85, 40, 72] with
threshold 70 the retained candidate (85, a, r1) reaches the threshold, and a
concrete all-below-threshold run returns the fallback record. -/
theorem c7_filtering_witness :
    (70 : ℚ) ≤ (85 : ℚ) ∧
    invoke lowOracle ansGen 70 "q" "h" [⟨"d", []⟩] [] =
      { result := ansGen (GenCall.fallback_question_history "q" "h"),
        source_documents := [], top_score := 0, used_knowledge := false,
        no_use_reason := some "无相关知识文档或该问题不需要引用文档",
        gen_call := GenCall.fallback_question_history "q" "h" } := by
  constructor
  · exact (c7_filtering 70 [(85, "a", "r1"), (40, "b", "r2"), (72, "c", "r3")]).2.1
      (85, "a", "r1") (by decide)
  · exact (c7_filtering 70 []).2.2.2 lowOracle ansGen "q" "h" [⟨"d", []⟩] []
      (by decide) (by decide)

/-! Helper lemmas about context assembly. -/

/-- Unfolding of appendItems on a cons. -/
theorem appendItems_cons (ctx : String) (it : ℚ × String × String)
    (l : List (ℚ × String × String)) :
    appendItems ctx (it :: l) = appendItems (ctx ++ it.2.1 ++ "\n\n") l := rfl

/-- Characterisation of the context-assembly loop: it processes exactly a
prefix of the filtered candidates, the context is the concatenation of the
texts of that prefix separated by blank lines, each processed passage fitted
the budget at the moment it was added, and the loop stopped exactly at the
first passage whose text would push the buffer past the budget. -/
theorem assembleContext_spec (merged : List Doc) :
    ∀ (l : List (ℚ × String × String)) (ctx : String),
    ∃ k, k ≤ l.length ∧
      (assembleContext merged l ctx).1 = appendItems ctx (l.take k) ∧
      (assembleContext merged l ctx).2 = (l.take k).map (mkSelected merged) ∧
      (∀ j, j < k → (appendItems ctx (l.take j)).length + (itemText l j).length
          ≤ max_context_length) ∧
      (k < l.length → max_context_length <
          (appendItems ctx (l.take k)).length + (itemText l k).length)
  | [], ctx =>
    ⟨0, Nat.le_refl 0, rfl, rfl,
     fun j hj => absurd hj (Nat.not_lt_zero j),
     fun hk => absurd hk (Nat.not_lt_zero 0)⟩
  | it :: rest, ctx => by
    by_cases h : max_context_length < ctx.length + it.2.1.length
    · refine ⟨0, Nat.zero_le _, ?_, ?_, fun j hj => absurd hj (Nat.not_lt_zero j), fun _ => ?_⟩
      · show (if max_context_length < ctx.length + it.2.1.length then (ctx, [])
            else _ : String × List SelectedDoc).1 = _
        rw [if_pos h]
        rfl
      · show (if max_context_length < ctx.length + it.2.1.length then (ctx, [])
            else _ : String × List SelectedDoc).2 = _
        rw [if_pos h]
        rfl
      · simpa [appendItems, itemText] using h
    · obtain ⟨k', hk'le, h1, h2, h3, h4⟩ :=
        assembleContext_spec merged rest (ctx ++ it.2.1 ++ "\n\n")
      have hred : assembleContext merged (it :: rest) ctx =
          ((assembleContext merged rest (ctx ++ it.2.1 ++ "\n\n")).1,
            mkSelected merged it ::
              (assembleContext merged rest (ctx ++ it.2.1 ++ "\n\n")).2) := by
        show (if max_context_length < ctx.length + it.2.1.length then (ctx, [])
            else _ : String × List SelectedDoc) = _
        rw [if_neg h]
      refine ⟨k' + 1, Nat.succ_le_succ hk'le, ?_, ?_, ?_, ?_⟩
      · rw [hred, List.take_succ_cons, appendItems_cons]
        exact h1
      · rw [hred, List.take_succ_cons, List.map_cons]
        simpa using h2
      · intro j hj
        cases j with
        | zero =>
          simpa [appendItems, itemText] using Nat.le_of_not_lt h
        | succ j' =>
          have hj' : j' < k' := Nat.lt_of_succ_lt_succ hj
          have := h3 j' hj'
          simpa [List.take_succ_cons, appendItems_cons, itemText] using this
      · intro hk
        have hk' : k' < rest.length := Nat.lt_of_succ_lt_succ hk
        have := h4 hk'
        simpa [List.take_succ_cons, appendItems_cons, itemText] using this

/-- The assembled context is never longer than the larger of the initial
buffer and the budget plus the final two-character separator. -/
theorem assembleContext_length (merged : List Doc) :
    ∀ (l : List (ℚ × String × String)) (ctx : String),
    (assembleContext merged l ctx).1.length ≤ max ctx.length (max_context_length + 2)
  | [], ctx => le_max_left _ _
  | it :: rest, ctx => by
    by_cases h : max_context_length < ctx.length + it.2.1.length
    · have hred : (assembleContext merged (it :: rest) ctx).1 = ctx := by
        show (if max_context_length < ctx.length + it.2.1.length then (ctx, [])
            else _ : String × List SelectedDoc).1 = _
        rw [if_pos h]
      rw [hred]
      exact le_max_left _ _
    · have hred : (assembleContext merged (it :: rest) ctx).1 =
          (assembleContext merged rest (ctx ++ it.2.1 ++ "\n\n")).1 := by
        show (if max_context_length < ctx.length + it.2.1.length then (ctx, [])
            else _ : String × List SelectedDoc).1 = _
        rw [if_neg h]
      have hlen : (ctx ++ it.2.1 ++ "\n\n").length = ctx.length + it.2.1.length + 2 := by
        rw [String.length_append, String.length_append]
        rfl
      have hle : (ctx ++ it.2.1 ++ "\n\n").length ≤ max_context_length + 2 := by
        rw [hlen]
        exact Nat.add_le_add_right (Nat.le_of_not_lt h) 2
      rw [hred]
      calc (assembleContext merged rest (ctx ++ it.2.1 ++ "\n\n")).1.length
          ≤ max (ctx ++ it.2.1 ++ "\n\n").length (max_context_length + 2) :=
            assembleContext_length merged rest (ctx ++ it.2.1 ++ "\n\n")
        _ ≤ max_context_length + 2 := max_le hle (Nat.le_refl _)
        _ ≤ max ctx.length (max_context_length + 2) := le_max_right _ _

/-- Claim C1 (amended, proved): during context assembly the filtered
candidates are taken in score-descending order; accumulation keeps every
passage already added and stops at the first passage whose text would push
the buffer past the 2000-character budget; passages are never individually
truncated (the context is the concatenation of the selected passage texts
with blank-line separators); and the assembled context exceeds the budget by
at most the final two-character separator. -/
theorem c1_context_assembly (merged : List Doc) (threshold : ℚ)
    (r : List (ℚ × String × String)) :
    (filterRerank threshold r).Pairwise (fun a b => b.1 ≤ a.1) ∧
    (∃ k, k ≤ (filterRerank threshold r).length ∧
      (assembleContext merged (filterRerank threshold r) "").1
        = appendItems "" ((filterRerank threshold r).take k) ∧
      (assembleContext merged (filterRerank threshold r) "").2
        = ((filterRerank threshold r).take k).map (mkSelected merged) ∧
      (∀ j, j < k →
        (appendItems "" ((filterRerank threshold r).take j)).length
          + (itemText (filterRerank threshold r) j).length ≤ max_context_length) ∧
      (k < (filterRerank threshold r).length →
        max_context_length <
          (appendItems "" ((filterRerank threshold r).take k)).length
            + (itemText (filterRerank threshold r) k).length)) ∧
    (assembleContext merged (filterRerank threshold r) "").1.length
      ≤ max_context_length + 2 := by
  refine ⟨filterRerank_pairwise threshold r,
    assembleContext_spec merged (filterRerank threshold r) "", ?_⟩
  have := assembleContext_length merged (filterRerank threshold r) ""
  simpa using this

/-- Witness for claim C1: a concrete assembly run keeping both passages; the
theorem yields its budget bound. -/
theorem c1_context_assembly_witness :
    (assembleContext [⟨"p1", []⟩, ⟨"p2", []⟩]
        (filterRerank 70 [(85, "p1", "r1"), (72, "p2", "r2")]) "").1.length
      ≤ max_context_length + 2 :=
  (c1_context_assembly [⟨"p1", []⟩, ⟨"p2", []⟩] 70 [(85, "p1", "r1"), (72, "p2", "r2")]).2.2

/-! Helper lemmas for the concrete big-passage runs. -/

/-- Assembly of a single passage that fits the budget appends its text and
the blank-line separator. -/
theorem assembleContext_single_fit (merged : List Doc) (it : ℚ × String × String)
    (h : ¬ max_context_length < it.2.1.length) :
    (assembleContext merged [it] "").1 = "" ++ it.2.1 ++ "\n\n" := by
  unfold assembleContext
  rw [if_neg (by simpa using h)]
  rfl

/-- Assembly stops immediately when the very first passage does not fit. -/
theorem assembleContext_first_over (merged : List Doc) (it : ℚ × String × String)
    (rest : List (ℚ × String × String)) (h : max_context_length < it.2.1.length) :
    assembleContext merged (it :: rest) "" = ("", []) := by
  unfold assembleContext
  rw [if_pos (by simpa using h)]

/-- The constant reply of scoreOracle parses to score 85 with rationale ok. -/
theorem scoreOracle_parse :
    searchScoreReason ("评分: 85\n理由: ok").data = some ((85 : ℚ), "ok") := by
  decide

/-- Scoring a single passage through scoreOracle yields the 85-tuple. -/
theorem scoreOracle_rerank (t : String) :
    get_rerank_scores scoreOracle "q" [t] 0 "未能识别评分格式" = [((85 : ℚ), t, "ok")] := by
  simp only [get_rerank_scores, List.map_cons, List.map_nil, scoreOne, scoreOracle]
  rw [scoreOracle_parse]

/-- Filtering the single 85-tuple at threshold 70 keeps it. -/
theorem filterRerank_single85 (t : String) :
    filterRerank 70 [((85 : ℚ), t, "ok")] = [((85 : ℚ), t, "ok")] := by
  have h70 : ((70 : ℚ) ≤ 85) := by norm_num
  simp [filterRerank, sortDesc, insertDesc, List.filter_cons, h70]

/-- The filtered candidates of a single-document retrieval through
scoreOracle. -/
theorem invokeFiltered_single (t : String) :
    invokeFiltered scoreOracle 70 "q" [⟨t, []⟩] [] = [((85 : ℚ), t, "ok")] := by
  unfold invokeFiltered
  have hmerge : mergeDocs [⟨t, []⟩] (([] : List Doc).take 5) = [⟨t, []⟩] := rfl
  rw [hmerge]
  simp only [List.map_cons, List.map_nil]
  rw [scoreOracle_rerank, filterRerank_single85]

/-- The 2000-character passage has length 2000. -/
theorem bigText2000_length : bigText2000.length = 2000 := by
  unfold bigText2000
  rw [String.length_mk, List.length_replicate]

/-- The 2001-character passage has length 2001. -/
theorem bigText2001_length : bigText2001.length = 2001 := by
  unfold bigText2001
  rw [String.length_mk, List.length_replicate]

/-- Counterexample to claim C1 as stated: retrieving one 2000-character
passage (scored 85, threshold 70) assembles a context of 2002 characters —
the blank-line separator is appended after the budget check, so the
assembled context exceeds the 2000-character budget. -/
theorem c1_budget_counterexample :
    max_context_length < genCallContextLength
      (invoke scoreOracle ansGen 70 "q" "" [⟨bigText2000, []⟩] []).gen_call := by
  have hmerge : mergeDocs [⟨bigText2000, []⟩] (([] : List Doc).take 5) = [⟨bigText2000, []⟩] := rfl
  have hm : mergeDocs [⟨bigText2000, []⟩] (([] : List Doc).take 5) ≠ [] := by
    rw [hmerge]; simp
  have hf : invokeFiltered scoreOracle 70 "q" [⟨bigText2000, []⟩] [] ≠ [] := by
    rw [invokeFiltered_single]; simp
  rw [invoke_answering scoreOracle ansGen 70 "q" "" [⟨bigText2000, []⟩] [] hm hf]
  show max_context_length < (assembleContext
      (mergeDocs [⟨bigText2000, []⟩] (([] : List Doc).take 5))
      (invokeFiltered scoreOracle 70 "q" [⟨bigText2000, []⟩] []) "").1.length
  rw [hmerge, invokeFiltered_single]
  have hfit : ¬ max_context_length < ((85 : ℚ), bigText2000, "ok").2.1.length := by
    show ¬ max_context_length < bigText2000.length
    rw [bigText2000_length]
    decide
  rw [assembleContext_single_fit [⟨bigText2000, []⟩] ((85 : ℚ), bigText2000, "ok") hfit]
  show max_context_length < ("" ++ bigText2000 ++ "\n\n").length
  rw [String.length_append, String.length_append, bigText2000_length]
  decide

/-- Counterexample to claim C2 as stated: retrieving one 2001-character
passage (scored 85, threshold 70) leaves zero Selected Documents after
context assembly, yet the knowledge-grounded call is still made (with an
empty context) and the result is marked used_knowledge with top_score 0. -/
theorem c2_call_without_selected_counterexample :
    (invoke scoreOracle ansGen 70 "q" "" [⟨bigText2001, []⟩] []).source_documents = [] ∧
    (invoke scoreOracle ansGen 70 "q" "" [⟨bigText2001, []⟩] []).used_knowledge = true ∧
    (invoke scoreOracle ansGen 70 "q" "" [⟨bigText2001, []⟩] []).gen_call
      = GenCall.knowledge "" "q" "" ∧
    (invoke scoreOracle ansGen 70 "q" "" [⟨bigText2001, []⟩] []).top_score = 0 := by
  have hmerge : mergeDocs [⟨bigText2001, []⟩] (([] : List Doc).take 5) = [⟨bigText2001, []⟩] := rfl
  have hm : mergeDocs [⟨bigText2001, []⟩] (([] : List Doc).take 5) ≠ [] := by
    rw [hmerge]; simp
  have hf : invokeFiltered scoreOracle 70 "q" [⟨bigText2001, []⟩] [] ≠ [] := by
    rw [invokeFiltered_single]; simp
  have hover : max_context_length < ((85 : ℚ), bigText2001, "ok").2.1.length := by
    show max_context_length < bigText2001.length
    rw [bigText2001_length]
    decide
  have hassem := assembleContext_first_over [⟨bigText2001, []⟩]
    ((85 : ℚ), bigText2001, "ok") [] hover
  rw [invoke_answering scoreOracle ansGen 70 "q" "" [⟨bigText2001, []⟩] [] hm hf,
    hmerge, invokeFiltered_single, hassem]
  exact ⟨rfl, rfl, rfl, rfl⟩

/-- Claim C2 (amended, proved): the knowledge-grounded call (bound to
context, question and chat history) is made exactly when at least one scored
candidate survived filtering — even when context assembly then selects no
document; the result is marked used_knowledge with top_score equal to the
score of the first (highest-scoring) Selected Document when one survived,
and 0.0 when none did. -/
theorem c2_knowledge_call (oracle : String → String → CallOutcome)
    (gen : GenCall → String) (threshold : ℚ) (query chat_history : String)
    (v b : List Doc) :
    (mergeDocs v (b.take 5) ≠ [] → invokeFiltered oracle threshold query v b ≠ [] →
      ((invoke oracle gen threshold query chat_history v b).gen_call
          = GenCall.knowledge (assembleContext (mergeDocs v (b.take 5))
              (invokeFiltered oracle threshold query v b) "").1 query chat_history ∧
        (invoke oracle gen threshold query chat_history v b).used_knowledge = true ∧
        (invoke oracle gen threshold query chat_history v b).top_score
          = (((invoke oracle gen threshold query chat_history v b).source_documents.head?).map
              SelectedDoc.score).getD 0 ∧
        (invoke oracle gen threshold query chat_history v b).source_documents.Pairwise
          (fun x y => y.score ≤ x.score))) ∧
    ((mergeDocs v (b.take 5) = [] ∨ invokeFiltered oracle threshold query v b = []) →
      ((invoke oracle gen threshold query chat_history v b).used_knowledge = false ∧
        ∀ context q2 h2,
          (invoke oracle gen threshold query chat_history v b).gen_call
            ≠ GenCall.knowledge context q2 h2)) := by
  constructor
  · intro hm hf
    rw [invoke_answering oracle gen threshold query chat_history v b hm hf]
    refine ⟨rfl, rfl, rfl, ?_⟩
    obtain ⟨k, hk, h1, h2, h3, h4⟩ :=
      assembleContext_spec (mergeDocs v (b.take 5))
        (invokeFiltered oracle threshold query v b) ""
    show (assembleContext (mergeDocs v (b.take 5))
        (invokeFiltered oracle threshold query v b) "").2.Pairwise
      (fun x y => y.score ≤ x.score)
    rw [h2, List.pairwise_map]
    have hpw : ((invokeFiltered oracle threshold query v b).take k).Pairwise
        (fun x y => y.1 ≤ x.1) :=
      List.Pairwise.sublist (List.take_sublist _ _) (filterRerank_pairwise _ _)
    exact hpw.imp (fun hxy => hxy)
  · intro hcase
    by_cases hm : mergeDocs v (b.take 5) = []
    · rw [invoke_empty_retrieval oracle gen threshold query chat_history v b hm]
      exact ⟨rfl, fun context q2 h2 => by simp⟩
    · have hf : invokeFiltered oracle threshold query v b = [] := by
        rcases hcase with hc | hc
        · exact absurd hc hm
        · exact hc
      rw [invoke_below_threshold oracle gen threshold query chat_history v b hm hf]
      exact ⟨rfl, fun context q2 h2 => by simp⟩

/-- Witness for claim C2: a concrete answering run in which one document is
selected; the result is marked used_knowledge and its top score is the score
of the first Selected Document. -/
theorem c2_knowledge_call_witness :
    (invoke scoreOracle ansGen 70 "q" "h" [⟨"doc1", []⟩] []).used_knowledge = true ∧
    (invoke scoreOracle ansGen 70 "q" "h" [⟨"doc1", []⟩] []).top_score
      = (((invoke scoreOracle ansGen 70 "q" "h" [⟨"doc1", []⟩] []).source_documents.head?).map
          SelectedDoc.score).getD 0 :=
  ⟨((c2_knowledge_call scoreOracle ansGen 70 "q" "h" [⟨"doc1", []⟩] []).1
      (by decide) (by decide)).2.1,
   ((c2_knowledge_call scoreOracle ansGen 70 "q" "h" [⟨"doc1", []⟩] []).1
      (by decide) (by decide)).2.2.1⟩

/-- Counterexample to claim C3 as stated: on the empty-retrieval fallback
trigger the generative call binds only the question — the chat history is
not passed to the no-knowledge template. -/
theorem c3_history_not_bound_counterexample :
    (invoke scoreOracle ansGen 70 "q" "hist" [] []).gen_call
      = GenCall.fallback_question "q" ∧
    (invoke scoreOracle ansGen 70 "q" "hist" [] []).gen_call
      ≠ GenCall.fallback_question_history "q" "hist" := by
  rw [invoke_empty_retrieval scoreOracle ansGen 70 "q" "hist" [] [] rfl]
  exact ⟨rfl, by simp⟩

/-- Claim C3 (amended, proved): on the empty-retrieval trigger the
generative model is called with only the question bound to the no-knowledge
template, and on the below-threshold trigger with the question and the chat
history; in both cases the result has used_knowledge false, top_score 0.0,
no_use_reason set to the triggering condition message, and an empty
source_documents list. -/
theorem c3_fallback_results (oracle : String → String → CallOutcome)
    (gen : GenCall → String) (threshold : ℚ) (query chat_history : String)
    (v b : List Doc) :
    (mergeDocs v (b.take 5) = [] →
      invoke oracle gen threshold query chat_history v b =
        { result := gen (GenCall.fallback_question query), source_documents := [],
          top_score := 0, used_knowledge := false,
          no_use_reason := some "未检索到任何文档",
          gen_call := GenCall.fallback_question query }) ∧
    (mergeDocs v (b.take 5) ≠ [] → invokeFiltered oracle threshold query v b = [] →
      invoke oracle gen threshold query chat_history v b =
        { result := gen (GenCall.fallback_question_history query chat_history),
          source_documents := [], top_score := 0, used_knowledge := false,
          no_use_reason := some "无相关知识文档或该问题不需要引用文档",
          gen_call := GenCall.fallback_question_history query chat_history }) :=
  ⟨invoke_empty_retrieval oracle gen threshold query chat_history v b,
   invoke_below_threshold oracle gen threshold query chat_history v b⟩

/-- Witness for claim C3: both fallback branches on concrete inputs. -/
theorem c3_fallback_results_witness :
    invoke scoreOracle ansGen 70 "q2" "h2" [] [] =
      { result := ansGen (GenCall.fallback_question "q2"), source_documents := [],
        top_score := 0, used_knowledge := false,
        no_use_reason := some "未检索到任何文档",
        gen_call := GenCall.fallback_question "q2" } ∧
    invoke lowOracle ansGen 70 "q2" "h2" [⟨"e", []⟩] [] =
      { result := ansGen (GenCall.fallback_question_history "q2" "h2"),
        source_documents := [], top_score := 0, used_knowledge := false,
        no_use_reason := some "无相关知识文档或该问题不需要引用文档",
        gen_call := GenCall.fallback_question_history "q2" "h2" } :=
  ⟨(c3_fallback_results scoreOracle ansGen 70 "q2" "h2" [] []).1 rfl,
   (c3_fallback_results lowOracle ansGen 70 "q2" "h2" [⟨"e", []⟩] []).2
     (by decide) (by decide)⟩

/-! Helper lemmas about the history compressor. -/

/-- Concatenation of string lists distributes over append. -/
theorem concatLines_append : ∀ (xs ys : List String),
    concatLines (xs ++ ys) = concatLines xs ++ concatLines ys
  | [], ys => by simp [concatLines]
  | x :: xs, ys => by
    show x ++ concatLines (xs ++ ys) = (x ++ concatLines xs) ++ concatLines ys
    rw [concatLines_append xs ys, String.append_assoc]

/-- A subadditive token counter that is zero on the empty string is bounded
on a concatenation by the sum of the line counts. -/
theorem count_concatLines_le (count : String → Nat) (h0 : count "" = 0)
    (hsub : ∀ a b : String, count (a ++ b) ≤ count a + count b) :
    ∀ (ls : List String), count (concatLines ls) ≤ (ls.map count).sum
  | [] => by simp [concatLines, h0]
  | l :: ls => by
    calc count (concatLines (l :: ls)) = count (l ++ concatLines ls) := rfl
      _ ≤ count l + count (concatLines ls) := hsub _ _
      _ ≤ count l + (ls.map count).sum :=
          Nat.add_le_add_left (count_concatLines_le count h0 hsub ls) _
      _ = ((l :: ls).map count).sum := by simp

/-- The token sum is invariant under reversal. -/
theorem tokenSum_reverse (count : String → Nat) (l : List ChatMessage) :
    tokenSum count l.reverse = tokenSum count l := by
  simp [tokenSum, List.map_reverse, List.sum_reverse]

/-- The token sum is the sum of the counts of the formatted lines. -/
theorem tokenSum_map (count : String → Nat) (l : List ChatMessage) :
    ((l.map formatLine).map count).sum = tokenSum count l := by
  simp only [tokenSum, List.map_map]
  rfl

/-- Characterisation of the accumulation loop of the history compressor: it
prepends the formatted lines of exactly a prefix of its (newest-first) input,
keeps the running token count within the budget, and stops at the first line
that would exceed it. -/
theorem historyLoop_spec (count : String → Nat) (maxT : Nat) :
    ∀ (l : List ChatMessage) (acc : String) (total : Nat), total ≤ maxT →
    ∃ j, j ≤ l.length ∧
      historyLoop count maxT l acc total
        = concatLines (((l.take j).reverse).map formatLine) ++ acc ∧
      total + tokenSum count (l.take j) ≤ maxT ∧
      (j < l.length → maxT < total + tokenSum count (l.take (j + 1)))
  | [], acc, total, htot =>
    ⟨0, Nat.le_refl 0, by simp [historyLoop, concatLines],
     by simpa [tokenSum] using htot, fun h => absurd h (by simp)⟩
  | m :: rest, acc, total, htot => by
    unfold historyLoop
    by_cases h : maxT < total + count (formatLine m)
    · refine ⟨0, Nat.zero_le _, ?_, ?_, ?_⟩
      · rw [if_pos h]
        simp [concatLines]
      · simpa [tokenSum] using htot
      · intro _
        simpa [tokenSum] using h
    · rw [if_neg h]
      have htot' : total + count (formatLine m) ≤ maxT := Nat.le_of_not_lt h
      obtain ⟨j', hj'le, h1, h2, h3⟩ :=
        historyLoop_spec count maxT rest (formatLine m ++ acc) (total + count (formatLine m)) htot'
      refine ⟨j' + 1, Nat.succ_le_succ hj'le, ?_, ?_, ?_⟩
      · rw [h1, List.take_succ_cons, List.reverse_cons, List.map_append, concatLines_append]
        simp [concatLines, String.append_assoc]
      · rw [List.take_succ_cons]
        simp only [tokenSum, List.map_cons, List.sum_cons] at h2 ⊢
        omega
      · intro hlt
        have hlt' : j' < rest.length := Nat.lt_of_succ_lt_succ hlt
        have hstop := h3 hlt'
        rw [List.take_succ_cons]
        simp only [tokenSum, List.map_cons, List.sum_cons] at hstop ⊢
        omega

/-- With a positive message limit, the considered slice has at most that
many turns. -/
theorem pyTail_length_le (k : Nat) (xs : List ChatMessage) (hk : 0 < k) :
    (pyTail k xs).length ≤ k := by
  unfold pyTail
  rw [if_neg (Nat.pos_iff_ne_zero.mp hk), List.length_drop]
  omega

/-- Claim C9 (confirmed): the history compressor considers only the last
max_msgs turns, formats each as a role-prefixed line, and includes a
contiguous, chronologically ordered suffix of the considered turns whose
running token count stays within max_tokens, stopping at the first
(next-older) line that would exceed the budget; under a subadditive token
counter the token count of the returned text therefore never exceeds
max_tokens. -/
theorem c9_history_compressor (count : String → Nat) (messages : List ChatMessage)
    (max_msgs max_tokens : Nat) (h0 : count "" = 0)
    (hsub : ∀ a b : String, count (a ++ b) ≤ count a + count b)
    (hm : 0 < max_msgs) :
    ∃ k, k ≤ (pyTail max_msgs messages).length ∧
      build_history_text_with_token_limit count messages max_msgs max_tokens
        = concatLines (((pyTail max_msgs messages).drop k).map formatLine) ∧
      tokenSum count ((pyTail max_msgs messages).drop k) ≤ max_tokens ∧
      (0 < k → max_tokens < tokenSum count ((pyTail max_msgs messages).drop (k - 1))) ∧
      ((pyTail max_msgs messages).drop k).length ≤ max_msgs ∧
      count (build_history_text_with_token_limit count messages max_msgs max_tokens)
        ≤ max_tokens := by
  obtain ⟨j, hjle, h1, h2, h3⟩ :=
    historyLoop_spec count max_tokens (pyTail max_msgs messages).reverse "" 0 (Nat.zero_le _)
  rw [List.length_reverse] at hjle
  have hbuild : build_history_text_with_token_limit count messages max_msgs max_tokens
      = historyLoop count max_tokens (pyTail max_msgs messages).reverse "" 0 := rfl
  have htake : ((pyTail max_msgs messages).reverse.take j).reverse
      = (pyTail max_msgs messages).drop ((pyTail max_msgs messages).length - j) := by
    rw [List.take_reverse, List.reverse_reverse]
  refine ⟨(pyTail max_msgs messages).length - j, Nat.sub_le _ _, ?_, ?_, ?_, ?_, ?_⟩
  · rw [hbuild, h1, ← htake]
    exact String.append_empty _
  · have : tokenSum count ((pyTail max_msgs messages).reverse.take j)
        = tokenSum count ((pyTail max_msgs messages).drop
            ((pyTail max_msgs messages).length - j)) := by
      rw [← htake, tokenSum_reverse]
    omega
  · intro hk
    have hjlt : j < (pyTail max_msgs messages).reverse.length := by
      rw [List.length_reverse]; omega
    have hstop := h3 hjlt
    have htake1 : ((pyTail max_msgs messages).reverse.take (j + 1)).reverse
        = (pyTail max_msgs messages).drop ((pyTail max_msgs messages).length - (j + 1)) := by
      rw [List.take_reverse, List.reverse_reverse]
    have heq : tokenSum count ((pyTail max_msgs messages).reverse.take (j + 1))
        = tokenSum count ((pyTail max_msgs messages).drop
            ((pyTail max_msgs messages).length - j - 1)) := by
      rw [← tokenSum_reverse count ((pyTail max_msgs messages).reverse.take (j + 1))]
      rw [htake1]
      have harith : (pyTail max_msgs messages).length - (j + 1)
          = (pyTail max_msgs messages).length - j - 1 := by omega
      rw [harith]
    omega
  · have hlen := pyTail_length_le max_msgs messages hm
    rw [List.length_drop]
    omega
  · rw [hbuild, h1, String.append_empty]
    have hcl := count_concatLines_le count h0 hsub
      ((((pyTail max_msgs messages).reverse.take j).reverse).map formatLine)
    have hmapsum := tokenSum_map count (((pyTail max_msgs messages).reverse.take j).reverse)
    have hrev := tokenSum_reverse count ((pyTail max_msgs messages).reverse.take j)
    omega

/-- Witness for claim C9: a concrete two-turn history compressed with the
character-length counter stays within the budget. -/
theorem c9_history_compressor_witness :
    (build_history_text_with_token_limit String.length
      [⟨true, "hi"⟩, ⟨false, "yo"⟩] 10 1500).length ≤ 1500 := by
  obtain ⟨k, _, _, _, _, _, hc⟩ := c9_history_compressor String.length
    [⟨true, "hi"⟩, ⟨false, "yo"⟩] 10 1500 rfl
    (fun a b => Nat.le_of_eq (String.length_append a b)) (by decide)
  exact hc

/-! Helper lemmas about the BM25 corpus segmentation. -/

/-- Concatenation without separators has the summed length. -/
theorem concatTokens_length : ∀ (l : List String),
    (concatTokens l).length = sumLen l
  | [] => rfl
  | t :: ts => by
    show (t ++ concatTokens ts).length = sumLen (t :: ts)
    rw [String.length_append, concatTokens_length ts]
    simp [sumLen]

/-- Joining a nonempty token list with single spaces yields the summed
length plus one separator per additional token. -/
theorem joinTokens_length : ∀ (l : List String), l ≠ [] →
    (joinTokens l).length + 1 = sumLen l + l.length
  | [], h => absurd rfl h
  | [t], _ => by
    show t.length + 1 = sumLen [t] + 1
    simp [sumLen]
  | t :: t2 :: ts, _ => by
    have ih := joinTokens_length (t2 :: ts) (by simp)
    show (t ++ " " ++ joinTokens (t2 :: ts)).length + 1 = sumLen (t :: t2 :: ts) + (ts.length + 2)
    rw [String.length_append, String.length_append]
    have hsp : (" " : String).length = 1 := rfl
    simp only [sumLen, List.map_cons, List.sum_cons, List.length_cons] at ih ⊢
    omega

/-- Claim C10 (confirmed): when the segmentation of a stored text yields more
than one token (and, as jieba guarantees, the tokens concatenate back to the
text), the space-joined lexical copy differs from the original text; hence a
document hit by both signals contributes two entries to the merged candidate
set — the original from the semantic list and the segmented copy from the
lexical list — and text-equality deduplication does not collapse them. -/
theorem c10_segmented_lexical (cut : String → List String)
    (hcut : ∀ s, concatTokens (cut s) = s) (d : Doc)
    (htok : 2 ≤ (cut d.page_content).length) :
    (segmentedCopy cut d).page_content ≠ d.page_content ∧
    (∀ (v b : List Doc), d ∈ v → segmentedCopy cut d ∈ b.take 5 →
      (∃ e, e ∈ mergeDocs v (b.take 5) ∧ e.page_content = d.page_content) ∧
      (∃ e, e ∈ mergeDocs v (b.take 5) ∧
        e.page_content = (segmentedCopy cut d).page_content)) := by
  have hne : (segmentedCopy cut d).page_content ≠ d.page_content := by
    intro he
    have h1 : (joinTokens (cut d.page_content)).length + 1
        = sumLen (cut d.page_content) + (cut d.page_content).length :=
      joinTokens_length _ (by
        intro h
        rw [h] at htok
        simp at htok)
    have h2 : (concatTokens (cut d.page_content)).length = sumLen (cut d.page_content) :=
      concatTokens_length _
    rw [hcut d.page_content] at h2
    have h3 : (segmentedCopy cut d).page_content = joinTokens (cut d.page_content) := rfl
    rw [h3] at he
    rw [he] at h1
    omega
  refine ⟨hne, fun v b hv hb => ?_⟩
  constructor
  · exact (dedupLoop_mem_text (v ++ b.take 5) [] d.page_content).mpr
      ⟨⟨d, List.mem_append.mpr (Or.inl hv), rfl⟩, by simp⟩
  · exact (dedupLoop_mem_text (v ++ b.take 5) [] _).mpr
      ⟨⟨segmentedCopy cut d, List.mem_append.mpr (Or.inr hb), rfl⟩, by simp⟩

/-- Witness for claim C10: the concrete segmenter splitting "ab" into two
tokens produces the distinct lexical copy "a b", and both entries survive the
merge. -/
theorem c10_segmented_lexical_witness :
    (segmentedCopy cutAB ⟨"ab", []⟩).page_content ≠ "ab" ∧
    (∃ e, e ∈ mergeDocs [⟨"ab", []⟩] ([segmentedCopy cutAB ⟨"ab", []⟩].take 5) ∧
      e.page_content = (segmentedCopy cutAB ⟨"ab", []⟩).page_content) := by
  have hcut : ∀ s, concatTokens (cutAB s) = s := by
    intro s
    unfold cutAB
    by_cases h : s = "ab"
    · rw [if_pos h, h]
      rfl
    · rw [if_neg h]
      show s ++ "" = s
      exact String.append_empty s
  have h := c10_segmented_lexical cutAB hcut ⟨"ab", []⟩ (by decide)
  exact ⟨h.1, (h.2 [⟨"ab", []⟩] [segmentedCopy cutAB ⟨"ab", []⟩]
    (by simp) (by simp)).2⟩

/-- Claim C4 (code bug, behaviour at the failing input): when the incoming
batch has no user-role turn, chat_service raises instead of returning a
result and the endpoint raises HTTPException(400) inside its try block; but
the blanket except clause catches that very exception and re-raises it as
HTTPException(500), so the client receives a 500 internal error instead of
the 400 client error the code intends. -/
theorem c4_input_error_wrapped_to_500 :
    chat_service_check [⟨"assistant", "hi"⟩]
      = Except.error (PyError.other_error "No user question provided.") ∧
    chatBody unreachedPipeline ⟨"s", [⟨"assistant", "hi"⟩]⟩
      = Except.error (PyError.http_error 400 "No user question provided.") ∧
    chatEndpoint unreachedPipeline ⟨"s", [⟨"assistant", "hi"⟩]⟩
      = Except.error (PyError.http_error 500
          "Internal error: 400: No user question provided.") :=
  ⟨rfl, rfl, rfl⟩

end AiRag
